import Mathlib

/-!
Shallow embedding of the CHIP-8 emulator core (`src/emulator/`):
the machine state (`mod.rs`), the opcode type and decoder (`opcode.rs`),
register file access (`reg_ops.rs`) and opcode execution
(`command_execution.rs`).

Modelling conventions:
* Machine integers (u8, u16) are `Nat` with explicit `% 256` / `% 65536`
  at the points where Rust arithmetic wraps (release-build semantics of
  `+`, `-`, `<<`; a debug build would abort on the same overflow).
* Every Rust panic site — `panic!`-style aborts, `todo!` arms,
  `Option::unwrap` on `None`, and out-of-bounds slice indexing — is
  modelled as the result `none`: the step aborts with no result value.
  The Rust `execute_opcode` returns `()` and `From::from` returns
  `OpCode`; neither has an error channel, so `none` is an abort, never a
  returned fault value.
* The call stack is a Rust `Vec<u16>`: push appends at the end
  (`List.concat`), pop removes the last element. `Vec::with_capacity(12)`
  in `Emulator::default` is only an allocation hint; a `Vec` grows
  without bound, so push never fails.
* The thread RNG is modelled by a field `rng` holding the byte the next
  draw would produce. The source calls `self.rng.clone().rand()`, so the
  stored generator state is unchanged by execution; the model leaves the
  field unchanged accordingly.
-/

/-- The machine state, from `struct Emulator` in `mod.rs`. -/
structure Emulator where
  /-- 4096 bytes of memory (`[u8; 4096]`). -/
  memory : List Nat
  /-- 16 general-purpose registers (`[u8; 16]`); register 15 doubles as flag. -/
  registers : List Nat
  /-- Memory address register (u16). -/
  index_register : Nat
  /-- Program counter (u16). -/
  program_counter : Nat
  /-- Call stack (`Vec<u16>`), last element is the top. -/
  stack : List Nat
  /-- Delay timer (u8). -/
  delay_timer : Nat
  /-- Sound timer (u8). -/
  sound_timer : Nat
  /-- Byte the next RNG draw yields. -/
  rng : Nat
  deriving DecidableEq, Repr

/-- `Emulator::default()` from `mod.rs`. -/
def Emulator.default : Emulator :=
  { memory := List.replicate 4096 0
    registers := List.replicate 16 0
    index_register := 0
    program_counter := 0
    stack := []
    delay_timer := 0
    sound_timer := 0
    rng := 0 }

/-- The opcode enum from `opcode.rs`. The source names the first variant
`_NativeCall`; the leading underscore is dropped here. Operand fields keep
their source names and are `Nat` for the source's u8/u16. -/
inductive OpCode where
  | NativeCall (target : Nat)
  | ClearScreen
  | Return
  | Goto (target : Nat)
  | Subroutine (target : Nat)
  | SkipNextIfRegEqualToConst (register constant : Nat)
  | SkipNextIfRegNotEqualToConst (register constant : Nat)
  | SkipNextIfRegEqualToReg (register_x register_y : Nat)
  | RegSetConst (register constant : Nat)
  | RegAddConst (register constant : Nat)
  | RegMov (register_x register_y : Nat)
  | RegBitwiseOr (register_x register_y : Nat)
  | RegBitwiseAnd (register_x register_y : Nat)
  | RegBitwiseXor (register_x register_y : Nat)
  | RegAdd (register_x register_y : Nat)
  | RegSub (register_x register_y : Nat)
  | RegRightShift (register : Nat)
  | RegReverseSub (register_x register_y : Nat)
  | RegLeftShift (register : Nat)
  | SkipNextIfRegNotEqualToReg (register_x register_y : Nat)
  | Mem (target : Nat)
  | JumpRegZero (target : Nat)
  | RandToReg (register constant : Nat)
  | DisplaySprite (coord_x coord_y height : Nat)
  | SkipNextIfRegKeyPressed (register : Nat)
  | SkipNextIfRegKeyNotPressed (register : Nat)
  | SetRegToDelayTimer (register : Nat)
  | SetRegToKeyPressed (register : Nat)
  | SetDelayTimerToReg (register : Nat)
  | SetSoundTimerToReg (register : Nat)
  | MemAddReg (register : Nat)
  | MemMoveToRegChar (register : Nat)
  | StoreBCD (register : Nat)
  | RegDump (register : Nat)
  | RegLoad (register : Nat)
  deriving DecidableEq, Repr

/-- `fn combine(first_byte: u8, second_byte: u8) -> u16` in `opcode.rs`. -/
def combine (first_byte second_byte : Nat) : Nat :=
  (first_byte <<< 8) ||| second_byte

/-- The decoder: `impl From<(u8, u8)> for OpCode` in `opcode.rs`.
The unrecognized-sub-opcode arms of classes 0x8, 0xE, 0xF abort the
process in the source; they are modelled as `none`. The final catch-all
arm of the source is unreachable for byte inputs (the high nibble of a u8
is below 16) and is likewise `none`. -/
def decode (first_byte second_byte : Nat) : Option OpCode :=
  let first_digit := first_byte >>> 4
  let second_digit := first_byte % (1 <<< 4)
  let third_digit := second_byte >>> 4
  let fourth_digit := second_byte % (1 <<< 4)
  let target := combine second_digit second_byte
  match first_digit with
  | 0x0 =>
    match second_byte with
    | 0xE0 => some .ClearScreen
    | 0xEE => some .Return
    | _ => some (.NativeCall target)
  | 0x1 => some (.Goto target)
  | 0x2 => some (.Subroutine target)
  | 0x3 => some (.SkipNextIfRegEqualToConst second_digit second_byte)
  | 0x4 => some (.SkipNextIfRegNotEqualToConst second_digit second_byte)
  | 0x5 => some (.SkipNextIfRegEqualToReg second_digit third_digit)
  | 0x6 => some (.RegSetConst second_digit second_byte)
  | 0x7 => some (.RegAddConst second_digit second_byte)
  | 0x8 =>
    match fourth_digit with
    | 0x0 => some (.RegMov second_digit third_digit)
    | 0x1 => some (.RegBitwiseOr second_digit third_digit)
    | 0x2 => some (.RegBitwiseAnd second_digit third_digit)
    | 0x3 => some (.RegBitwiseXor second_digit third_digit)
    | 0x4 => some (.RegAdd second_digit third_digit)
    | 0x5 => some (.RegSub second_digit third_digit)
    | 0x6 => some (.RegRightShift second_digit)
    | 0x7 => some (.RegReverseSub second_digit third_digit)
    | 0xE => some (.RegLeftShift second_digit)
    | _ => none
  | 0x9 => some (.SkipNextIfRegNotEqualToReg second_digit third_digit)
  | 0xA => some (.Mem target)
  | 0xB => some (.JumpRegZero target)
  | 0xC => some (.RandToReg second_digit second_byte)
  | 0xD => some (.DisplaySprite second_digit third_digit fourth_digit)
  | 0xE =>
    match second_byte with
    | 0x9E => some (.SkipNextIfRegKeyPressed second_digit)
    | 0xA1 => some (.SkipNextIfRegKeyNotPressed second_digit)
    | _ => none
  | 0xF =>
    match second_byte with
    | 0x07 => some (.SetRegToDelayTimer second_digit)
    | 0x0A => some (.SetRegToKeyPressed second_digit)
    | 0x15 => some (.SetDelayTimerToReg second_digit)
    | 0x18 => some (.SetSoundTimerToReg second_digit)
    | 0x1E => some (.MemAddReg second_digit)
    | 0x29 => some (.MemMoveToRegChar second_digit)
    | 0x33 => some (.StoreBCD second_digit)
    | 0x55 => some (.RegDump second_digit)
    | 0x65 => some (.RegLoad second_digit)
    | _ => none
  | _ => none

/-- `fn get_reg` in `reg_ops.rs`: `self.registers[register as usize]`;
an out-of-bounds index aborts (here `none`). -/
def Emulator.get_reg (e : Emulator) (register : Nat) : Option Nat :=
  e.registers[register]?

/-- `fn set_reg` in `reg_ops.rs`: `self.registers[register as usize] = value`;
an out-of-bounds index aborts (here `none`). -/
def Emulator.set_reg (e : Emulator) (register value : Nat) : Option Emulator :=
  if register < e.registers.length then
    some { e with registers := e.registers.set register value }
  else none

/-- A write `self.memory[addr] = value` on the 4096-byte array; an
out-of-bounds address aborts (here `none`). -/
def Emulator.memWrite (e : Emulator) (addr value : Nat) : Option Emulator :=
  if addr < e.memory.length then
    some { e with memory := e.memory.set addr value }
  else none

/-- `fn goto` in `command_execution.rs`. -/
def Emulator.goto (e : Emulator) (dest : Nat) : Emulator :=
  { e with program_counter := dest }

/-- `fn subroutine` in `command_execution.rs`: push the program counter,
then `goto dest`. `Vec::push` appends at the end and never fails. -/
def Emulator.subroutine (e : Emulator) (dest : Nat) : Emulator :=
  Emulator.goto { e with stack := e.stack.concat e.program_counter } dest

/-- `fn ret` in `command_execution.rs`:
`self.program_counter = self.stack.pop().unwrap()`. `Vec::pop` removes
the last element; `unwrap` on an empty stack aborts (here `none`). -/
def Emulator.ret (e : Emulator) : Option Emulator :=
  match e.stack.getLast? with
  | some a => some { e with program_counter := a, stack := e.stack.dropLast }
  | none => none

/-- `fn skip` in `command_execution.rs`: `self.program_counter += 2`
(u16 addition, wraps in a release build). -/
def Emulator.skip (e : Emulator) : Emulator :=
  { e with program_counter := (e.program_counter + 2) % 65536 }

/-- The loop `for i in 0..=register` of the `RegDump` arm, iterating the
remaining count: each step stores register `i` at address
`index_register + i`. -/
def regDumpLoop (e : Emulator) (i : Nat) : Nat → Option Emulator
  | 0 => some e
  | n + 1 => do
    let v ← e.get_reg i
    let e2 ← e.memWrite (e.index_register + i) v
    regDumpLoop e2 (i + 1) n

/-- The loop `for i in 0..=register` of the `RegLoad` arm, iterating the
remaining count: each step loads address `index_register + i` into
register `i`. -/
def regLoadLoop (e : Emulator) (i : Nat) : Nat → Option Emulator
  | 0 => some e
  | n + 1 => do
    let v ← e.memory[e.index_register + i]?
    let e2 ← e.set_reg i v
    regLoadLoop e2 (i + 1) n

/-- `fn execute_opcode` in `command_execution.rs`. `none` models an
aborted step: the `panic!` arm for `_NativeCall`, every `todo!` arm, the
`unwrap` in `ret`, and out-of-bounds register/memory indexing. u8/u16
arithmetic wraps as in a release build. -/
def execute_opcode (e : Emulator) : OpCode → Option Emulator
  | .NativeCall _ => none
  | .ClearScreen => none
  | .Return => e.ret
  | .Goto target => some (e.goto target)
  | .Subroutine target => some (e.subroutine target)
  | .SkipNextIfRegEqualToConst register constant => do
    let rx ← e.get_reg register
    if rx = constant then some e.skip else some e
  | .SkipNextIfRegNotEqualToConst register constant => do
    let rx ← e.get_reg register
    if rx ≠ constant then some e.skip else some e
  | .SkipNextIfRegEqualToReg register_x register_y => do
    let rx ← e.get_reg register_x
    let ry ← e.get_reg register_y
    if rx = ry then some e.skip else some e
  | .RegSetConst register constant => e.set_reg register constant
  | .RegAddConst register constant => do
    let rx ← e.get_reg register
    e.set_reg register ((rx + constant) % 256)
  | .RegMov register_x register_y => do
    let ry ← e.registers[register_y]?
    if register_x < e.registers.length then
      some { e with registers := e.registers.set register_x ry }
    else none
  | .RegBitwiseOr register_x register_y => do
    let rx ← e.get_reg register_x
    let ry ← e.get_reg register_y
    e.set_reg register_x (rx ||| ry)
  | .RegBitwiseAnd register_x register_y => do
    let rx ← e.get_reg register_x
    let ry ← e.get_reg register_y
    e.set_reg register_x (rx &&& ry)
  | .RegBitwiseXor register_x register_y => do
    let rx ← e.get_reg register_x
    let ry ← e.get_reg register_y
    e.set_reg register_x (rx ^^^ ry)
  | .RegAdd register_x register_y => do
    let rx ← e.get_reg register_x
    let ry ← e.get_reg register_y
    e.set_reg register_x ((rx + ry) % 256)
  | .RegSub register_x register_y => do
    let rx ← e.get_reg register_x
    let ry ← e.get_reg register_y
    e.set_reg register_x ((rx + 256 - ry) % 256)
  | .RegRightShift register => do
    let rx ← e.get_reg register
    let e2 ← e.set_reg 0xF (rx % (1 <<< 1))
    e2.set_reg register (rx >>> 1)
  | .RegReverseSub register_x register_y => do
    let rx ← e.get_reg register_x
    let ry ← e.get_reg register_y
    if register_x < e.registers.length then
      some { e with registers := e.registers.set register_x ((ry + 256 - rx) % 256) }
    else none
  | .RegLeftShift register => do
    let rx ← e.get_reg register
    let e2 ← e.set_reg 0xF (rx >>> 7)
    e2.set_reg register ((rx <<< 1) % 256)
  | .SkipNextIfRegNotEqualToReg register_x register_y => do
    let rx ← e.get_reg register_x
    let ry ← e.get_reg register_y
    if rx ≠ ry then some e.skip else some e
  | .Mem target => some { e with index_register := target }
  | .JumpRegZero target => do
    let r0 ← e.get_reg 0
    some (e.goto ((r0 + target) % 65536))
  | .RandToReg register constant => e.set_reg register (e.rng &&& constant)
  | .DisplaySprite _ _ _ => none
  | .SkipNextIfRegKeyPressed _ => none
  | .SkipNextIfRegKeyNotPressed _ => none
  | .SetRegToDelayTimer register => e.set_reg register e.delay_timer
  | .SetRegToKeyPressed _ => none
  | .SetDelayTimerToReg register => do
    let rx ← e.get_reg register
    some { e with delay_timer := rx }
  | .SetSoundTimerToReg register => do
    let rx ← e.get_reg register
    some { e with sound_timer := rx }
  | .MemAddReg register => do
    let rx ← e.get_reg register
    some { e with index_register := (e.index_register + rx) % 65536 }
  | .MemMoveToRegChar _ => none
  | .StoreBCD _ => none
  | .RegDump register => regDumpLoop e 0 (register + 1)
  | .RegLoad register => regLoadLoop e 0 (register + 1)

/-- Register-operand sanity: every operand of the operation that names a
register (the X and Y nibbles, including the sprite coordinates, which
are register indices) is below 16. -/
def regOperandsOk : OpCode → Bool
  | .NativeCall _ => true
  | .ClearScreen => true
  | .Return => true
  | .Goto _ => true
  | .Subroutine _ => true
  | .SkipNextIfRegEqualToConst register _ => register < 16
  | .SkipNextIfRegNotEqualToConst register _ => register < 16
  | .SkipNextIfRegEqualToReg register_x register_y => register_x < 16 && register_y < 16
  | .RegSetConst register _ => register < 16
  | .RegAddConst register _ => register < 16
  | .RegMov register_x register_y => register_x < 16 && register_y < 16
  | .RegBitwiseOr register_x register_y => register_x < 16 && register_y < 16
  | .RegBitwiseAnd register_x register_y => register_x < 16 && register_y < 16
  | .RegBitwiseXor register_x register_y => register_x < 16 && register_y < 16
  | .RegAdd register_x register_y => register_x < 16 && register_y < 16
  | .RegSub register_x register_y => register_x < 16 && register_y < 16
  | .RegRightShift register => register < 16
  | .RegReverseSub register_x register_y => register_x < 16 && register_y < 16
  | .RegLeftShift register => register < 16
  | .SkipNextIfRegNotEqualToReg register_x register_y => register_x < 16 && register_y < 16
  | .Mem _ => true
  | .JumpRegZero _ => true
  | .RandToReg register _ => register < 16
  | .DisplaySprite coord_x coord_y _ => coord_x < 16 && coord_y < 16
  | .SkipNextIfRegKeyPressed register => register < 16
  | .SkipNextIfRegKeyNotPressed register => register < 16
  | .SetRegToDelayTimer register => register < 16
  | .SetRegToKeyPressed register => register < 16
  | .SetDelayTimerToReg register => register < 16
  | .SetSoundTimerToReg register => register < 16
  | .MemAddReg register => register < 16
  | .MemMoveToRegChar register => register < 16
  | .StoreBCD register => register < 16
  | .RegDump register => register < 16
  | .RegLoad register => register < 16

/-- State with register0 = 200 and register1 = 100 (the carry example of
the specification). -/
def addExample : Emulator :=
  { Emulator.default with registers := [200, 100, 0, 0, 0, 0, 0, 0, 0, 0, 0, 0, 0, 0, 0, 0] }

/-- State with register0 = 100 and register1 = 50 (no-borrow example). -/
def subExample : Emulator :=
  { Emulator.default with registers := [100, 50, 0, 0, 0, 0, 0, 0, 0, 0, 0, 0, 0, 0, 0, 0] }

/-- State with register1 = 5 (the shift example of the specification). -/
def shiftExample : Emulator :=
  { Emulator.default with registers := [0, 5, 0, 0, 0, 0, 0, 0, 0, 0, 0, 0, 0, 0, 0, 0] }

/-- State with register15 = 5, for shifts that target the flag register. -/
def flagExample : Emulator :=
  { Emulator.default with registers := [0, 0, 0, 0, 0, 0, 0, 0, 0, 0, 0, 0, 0, 0, 0, 5] }

/-- State with register0 = 1, register1 = 2, register2 = 3, index 0 (the
DumpRegisters example of the specification). -/
def dumpExample : Emulator :=
  { Emulator.default with registers := [1, 2, 3, 0, 0, 0, 0, 0, 0, 0, 0, 0, 0, 0, 0, 0] }

/-- The default state has 4096 bytes of memory. -/
theorem default_memory_length : Emulator.default.memory.length = 4096 :=
  List.length_replicate 4096 0

/-- An iteration range of the RegDump loop whose last written address
`index_register + i + n` is already out of bounds always aborts. -/
theorem regDumpLoop_none : ∀ (n i : Nat) (e : Emulator),
    e.memory.length ≤ e.index_register + i + n →
    regDumpLoop e i (n + 1) = none := by
  intro n
  induction n with
  | zero =>
    intro i e h
    unfold regDumpLoop
    cases hr : e.get_reg i with
    | none => rfl
    | some v =>
      simp only [Option.bind_eq_bind, Option.some_bind, hr]
      unfold Emulator.memWrite
      rw [if_neg (by omega)]
      rfl
  | succ n ih =>
    intro i e h
    unfold regDumpLoop
    cases hr : e.get_reg i with
    | none => rfl
    | some v =>
      simp only [Option.bind_eq_bind, Option.some_bind, hr]
      unfold Emulator.memWrite
      by_cases hlt : e.index_register + i < e.memory.length
      · rw [if_pos hlt]
        simp only [Option.some_bind]
        exact ih (i + 1) _ (by simp; omega)
      · rw [if_neg hlt]
        rfl

/-- An iteration range of the RegLoad loop whose last read address
`index_register + i + n` is already out of bounds always aborts. -/
theorem regLoadLoop_none : ∀ (n i : Nat) (e : Emulator),
    e.memory.length ≤ e.index_register + i + n →
    regLoadLoop e i (n + 1) = none := by
  intro n
  induction n with
  | zero =>
    intro i e h
    unfold regLoadLoop
    have hnone : e.memory[e.index_register + i]? = none := by
      rw [List.getElem?_eq_none]
      omega
    simp [hnone]
  | succ n ih =>
    intro i e h
    unfold regLoadLoop
    cases hr : e.memory[e.index_register + i]? with
    | none => simp [hr]
    | some v =>
      simp only [Option.bind_eq_bind, Option.some_bind, hr]
      cases hs : e.set_reg i v with
      | none => rfl
      | some e2 =>
        simp only [Option.some_bind]
        have hmem : e2.memory = e.memory := by
          unfold Emulator.set_reg at hs
          split at hs
          · cases hs; rfl
          · cases hs
        have hidx : e2.index_register = e.index_register := by
          unfold Emulator.set_reg at hs
          split at hs
          · cases hs; rfl
          · cases hs
        exact ih (i + 1) e2 (by rw [hmem, hidx]; omega)

/-- Full functional description of an in-bounds RegDump loop run: it
succeeds, writes registers `i, i+1, ...` to the addresses
`index_register + i, ...`, leaves every other field and every other
memory cell unchanged. -/
theorem regDumpLoop_ok : ∀ (n i : Nat) (e : Emulator),
    e.registers.length = 16 →
    i + n ≤ 16 →
    e.index_register + i + n ≤ e.memory.length →
    ∃ e2, regDumpLoop e i n = some e2 ∧
      e2.registers = e.registers ∧
      e2.index_register = e.index_register ∧
      e2.program_counter = e.program_counter ∧
      e2.stack = e.stack ∧
      e2.delay_timer = e.delay_timer ∧
      e2.sound_timer = e.sound_timer ∧
      e2.rng = e.rng ∧
      e2.memory.length = e.memory.length ∧
      (∀ a, a < e.index_register + i → e2.memory[a]? = e.memory[a]?) ∧
      (∀ k, k < n → e2.memory[e.index_register + i + k]? = e.registers[i + k]?) := by
  intro n
  induction n with
  | zero =>
    intro i e hreg hn hm
    exact ⟨e, rfl, rfl, rfl, rfl, rfl, rfl, rfl, rfl, rfl, fun a _ => rfl,
      fun k hk => absurd hk (by omega)⟩
  | succ n ih =>
    intro i e hreg hn hm
    have hi : i < e.registers.length := by omega
    have hwr : e.index_register + i < e.memory.length := by omega
    have hget : e.get_reg i = some e.registers[i] := by
      unfold Emulator.get_reg
      exact List.getElem?_eq_getElem hi
    have hlenset : (e.memory.set (e.index_register + i) e.registers[i]).length
        = e.memory.length := by
      simp
    obtain ⟨e2, hrun, hregs, hidx, hpc, hstk, hdt, hst, hrng, hlen, hlow, hval⟩ :=
      ih (i + 1) { e with memory := e.memory.set (e.index_register + i) e.registers[i] }
        hreg (by omega) (by simpa using by omega)
    have hrun2 : regDumpLoop { e with
        memory := e.memory.set (e.index_register + i) e.registers[i] } (i + 1) n = some e2 := hrun
    have hregs2 : e2.registers = e.registers := hregs
    have hidx2 : e2.index_register = e.index_register := hidx
    have hlen2 : e2.memory.length = (e.memory.set (e.index_register + i) e.registers[i]).length :=
      hlen
    have hlow2 : ∀ a, a < e.index_register + (i + 1) →
        e2.memory[a]? = (e.memory.set (e.index_register + i) e.registers[i])[a]? := hlow
    have hval2 : ∀ k, k < n →
        e2.memory[e.index_register + (i + 1) + k]?
          = (e.registers : List Nat)[i + 1 + k]? := hval
    have hstep : regDumpLoop e i (n + 1) = some e2 := by
      unfold regDumpLoop
      simp only [Option.bind_eq_bind, Option.some_bind, hget]
      unfold Emulator.memWrite
      rw [if_pos hwr]
      simp only [Option.some_bind]
      exact hrun2
    refine ⟨e2, hstep, hregs2, hidx2, hpc, hstk, hdt, hst, hrng, hlen2.trans hlenset, ?_, ?_⟩
    · intro a ha
      rw [hlow2 a (by omega)]
      rw [List.getElem?_set_ne (by omega)]
    · intro k hk
      rcases Nat.eq_zero_or_pos k with hk0 | hkpos
      · subst hk0
        rw [show e.index_register + i + 0 = e.index_register + i from by omega]
        rw [hlow2 (e.index_register + i) (by omega)]
        rw [List.getElem?_set_self hwr]
        rw [show i + 0 = i from by omega]
        rw [List.getElem?_eq_getElem hi]
      · obtain ⟨j, rfl⟩ : ∃ j, k = j + 1 := ⟨k - 1, by omega⟩
        have hv := hval2 j (by omega)
        rw [show e.index_register + i + (j + 1) = e.index_register + (i + 1) + j from by omega]
        rw [hv]
        rw [show i + 1 + j = i + (j + 1) from by omega]

/-- Claim C1 (evidence of the divergence): executing RegAdd with
register0 = 200 and register1 = 100 wraps register0 to 44 but leaves
register 15 at 0 — the execution code never writes the carry flag the
claim (and the opcode documentation) promises. Likewise RegSub with
register0 = 100 ≥ register1 = 50 and RegReverseSub with
registerY = 100 ≥ registerX = 50 leave register 15 at 0 where the claim
requires 1. -/
theorem regArith_flags_not_written :
    (∃ a, execute_opcode addExample (.RegAdd 0 1) = some a ∧
      a.get_reg 0 = some 44 ∧ a.get_reg 15 = some 0)
    ∧ (∃ s, execute_opcode subExample (.RegSub 0 1) = some s ∧
      s.get_reg 0 = some 50 ∧ s.get_reg 15 = some 0)
    ∧ (∃ r, execute_opcode subExample (.RegReverseSub 1 0) = some r ∧
      r.get_reg 1 = some 50 ∧ r.get_reg 15 = some 0) := by
  exact ⟨⟨_, rfl, rfl, rfl⟩, ⟨_, rfl, rfl, rfl⟩, ⟨_, rfl, rfl, rfl⟩⟩

/-- Claim C2 (counterexample): decoding the byte pair (0x88, 0x08) —
class 0x8 with the unrecognized sub-opcode nibble 0x8 — aborts the
process (the decoder has no error value to return: the OpCode type has
no decode-error variant, and the source arm is a process abort), so
decoding does not return a DecodeError value there. -/
theorem decode_unknown_subopcode_cex : decode 0x88 0x08 = none := by decide

set_option maxRecDepth 8000 in
/-- Claim C2 (amended): decoding is a total deterministic function on
classes 0x0-0x7 and 0x9-0xD; class-0 bytes other than 0xE0/0xEE decode
to NativeCall; and for classes 0x8, 0xE, 0xF with an unrecognized
sub-opcode nibble/byte, decoding aborts (modelled `none`) instead of
returning a decode-error value. -/
theorem decode_total_on_listed_classes (b1 b2 : Nat) (h1 : b1 < 256) (h2 : b2 < 256) :
    ((b1 >>> 4 ≤ 0x7 ∨ (0x9 ≤ b1 >>> 4 ∧ b1 >>> 4 ≤ 0xD)) → (decode b1 b2).isSome = true)
    ∧ (b1 >>> 4 = 0x0 → b2 ≠ 0xE0 → b2 ≠ 0xEE →
        decode b1 b2 = some (.NativeCall (combine (b1 % (1 <<< 4)) b2)))
    ∧ (b1 >>> 4 = 0x8 → b2 % (1 <<< 4) ∉ [0x0, 0x1, 0x2, 0x3, 0x4, 0x5, 0x6, 0x7, 0xE] →
        decode b1 b2 = none)
    ∧ (b1 >>> 4 = 0xE → b2 ≠ 0x9E → b2 ≠ 0xA1 → decode b1 b2 = none)
    ∧ (b1 >>> 4 = 0xF → b2 ∉ [0x07, 0x0A, 0x15, 0x18, 0x1E, 0x29, 0x33, 0x55, 0x65] →
        decode b1 b2 = none) := by
  have h16 : b1 >>> 4 < 16 := by
    rw [Nat.shiftRight_eq_div_pow]
    omega
  refine ⟨?_, ?_, ?_, ?_, ?_⟩
  · intro hcls
    unfold decode
    simp only
    set c := b1 >>> 4 with hc
    interval_cases c <;> simp only <;>
      first
      | rfl
      | (split <;> rfl)
      | omega
  · intro hcls hne1 hne2
    unfold decode
    simp only
    rw [hcls]
  · intro hcls hmem
    simp only [List.mem_cons, List.not_mem_nil, or_false, not_or] at hmem
    obtain ⟨u0, u1, u2, u3, u4, u5, u6, u7, uE⟩ := hmem
    unfold decode
    simp only
    set n := b2 % (1 <<< 4) with hn
    rw [hcls]
  · intro hcls hne1 hne2
    unfold decode
    simp only
    rw [hcls]
  · intro hcls hmem
    simp only [List.mem_cons, List.not_mem_nil, or_false, not_or] at hmem
    obtain ⟨u1, u2, u3, u4, u5, u6, u7, u8, u9⟩ := hmem
    unfold decode
    simp only
    rw [hcls]

/-- Witness for C2: the amended theorem applied at concrete byte pairs,
one per clause. -/
theorem decode_total_on_listed_classes_witness :
    (decode 0x12 0x34).isSome = true
    ∧ decode 0x00 0x25 = some (.NativeCall (combine (0x00 % (1 <<< 4)) 0x25))
    ∧ decode 0x89 0x09 = none
    ∧ decode 0xE3 0x00 = none
    ∧ decode 0xF0 0x00 = none := by
  refine ⟨?_, ?_, ?_, ?_, ?_⟩
  · exact (decode_total_on_listed_classes 0x12 0x34 (by decide) (by decide)).1
      (by decide)
  · exact (decode_total_on_listed_classes 0x00 0x25 (by decide) (by decide)).2.1
      (by decide) (by decide) (by decide)
  · exact (decode_total_on_listed_classes 0x89 0x09 (by decide) (by decide)).2.2.1
      (by decide) (by decide)
  · exact (decode_total_on_listed_classes 0xE3 0x00 (by decide) (by decide)).2.2.2.1
      (by decide) (by decide) (by decide)
  · exact (decode_total_on_listed_classes 0xF0 0x00 (by decide) (by decide)).2.2.2.2
      (by decide) (by decide)

/-- Claim C3 (counterexample): RegDump with index register 4095 and
X = 1 computes the address 4096, which is out of bounds; the execute
step aborts (the address is caught by the array bounds check and the
step has no fault value to return), so no MemoryOutOfBounds result
value is produced. -/
theorem regDump_oob_cex :
    execute_opcode { Emulator.default with index_register := 4095 } (.RegDump 1) = none := by
  show regDumpLoop { Emulator.default with index_register := 4095 } 0 (1 + 1) = none
  refine regDumpLoop_none 1 0 _ ?_
  show Emulator.default.memory.length ≤ 4095 + 0 + 1
  rw [default_memory_length]

/-- Claim C3 (amended): whenever some address `index_register + i`
(0 ≤ i ≤ X) of a RegDump or RegLoad falls outside the 4096-byte region
(equivalently, the last address `index_register + X` does), the execute
step aborts via the bounds check — the address is never wrapped, and no
typed MemoryOutOfBounds value is returned because the step has no error
channel. -/
theorem regDump_regLoad_oob_abort (e : Emulator) (X : Nat)
    (hmem : e.memory.length = 4096) (hoob : 4096 ≤ e.index_register + X) :
    execute_opcode e (.RegDump X) = none ∧ execute_opcode e (.RegLoad X) = none := by
  constructor
  · show regDumpLoop e 0 (X + 1) = none
    exact regDumpLoop_none X 0 e (by omega)
  · show regLoadLoop e 0 (X + 1) = none
    exact regLoadLoop_none X 0 e (by omega)

/-- Witness for C3: the amended theorem applied at index register 4090
and X = 10. -/
theorem regDump_regLoad_oob_abort_witness :
    execute_opcode { Emulator.default with index_register := 4090 } (.RegDump 10) = none
    ∧ execute_opcode { Emulator.default with index_register := 4090 } (.RegLoad 10) = none :=
  regDump_regLoad_oob_abort { Emulator.default with index_register := 4090 } 10
    default_memory_length (by decide)

/-- Claim C4 (counterexample): Return on the empty stack aborts the
step (`unwrap` of `None`), producing no StackUnderflow value; and
Subroutine with the stack already holding 12 entries (the allocation
hint passed to `Vec::with_capacity`) succeeds, pushing a 13th entry —
there is no StackOverflow at any capacity. -/
theorem stack_fault_cex :
    execute_opcode Emulator.default .Return = none
    ∧ execute_opcode { Emulator.default with stack := List.replicate 12 0 } (.Subroutine 0x300)
      = some { Emulator.default with
               stack := (List.replicate 12 0).concat 0
               program_counter := 0x300 } := by
  exact ⟨rfl, rfl⟩

/-- Claim C4 (amended): Return against an empty call stack aborts the
process (no StackUnderflow value is returned — the step has no error
channel), and Subroutine never fails: the `Vec`-backed stack grows
without bound, so no StackOverflow fault exists at any stack size. -/
theorem ret_abort_subroutine_unbounded (e : Emulator) (t : Nat) :
    (e.stack = [] → execute_opcode e .Return = none)
    ∧ (execute_opcode e (.Subroutine t)).isSome = true := by
  constructor
  · intro h
    show e.ret = none
    unfold Emulator.ret
    rw [h]
    rfl
  · rfl

/-- Witness for C4: the amended theorem applied at the default state and
target 0x300. -/
theorem ret_abort_subroutine_unbounded_witness :
    execute_opcode Emulator.default .Return = none
    ∧ (execute_opcode Emulator.default (.Subroutine 0x300)).isSome = true :=
  ⟨(ret_abort_subroutine_unbounded Emulator.default 0x300).1 rfl,
   (ret_abort_subroutine_unbounded Emulator.default 0x300).2⟩

/-- Claim C5: RegRightShift first writes the least-significant bit of
the pre-shift value of register X into register 15, then writes the
pre-shift value shifted right by one into register X (the resulting
register file is the 15-then-X double update); decoding (0x81, 0x26)
yields RegRightShift on register 1, and executing it with
register1 = 5 leaves register 15 = 1 and register 1 = 2. -/
theorem regRightShift_spec (e : Emulator) (X rx : Nat) (hreg : e.registers.length = 16)
    (hX : X < 16) (hrx : e.get_reg X = some rx) :
    execute_opcode e (.RegRightShift X)
      = some { e with registers := (e.registers.set 0xF (rx % (1 <<< 1))).set X (rx >>> 1) }
    ∧ decode 0x81 0x26 = some (.RegRightShift 1)
    ∧ (∃ s, execute_opcode shiftExample (.RegRightShift 1) = some s ∧
        s.get_reg 15 = some 1 ∧ s.get_reg 1 = some 2) := by
  refine ⟨?_, by decide, ⟨_, rfl, rfl, rfl⟩⟩
  simp only [execute_opcode, hrx, Option.bind_eq_bind, Option.some_bind]
  unfold Emulator.set_reg
  rw [if_pos (by omega)]
  simp only [Option.some_bind]
  rw [if_pos (by simpa using by omega)]

/-- Witness for C5: the theorem applied at the shift example state with
X = 1 and register1 = 5. -/
theorem regRightShift_spec_witness :
    execute_opcode shiftExample (.RegRightShift 1)
      = some { shiftExample with
               registers := (shiftExample.registers.set 0xF (5 % (1 <<< 1))).set 1 (5 >>> 1) }
    ∧ decode 0x81 0x26 = some (.RegRightShift 1)
    ∧ (∃ s, execute_opcode shiftExample (.RegRightShift 1) = some s ∧
        s.get_reg 15 = some 1 ∧ s.get_reg 1 = some 2) :=
  regRightShift_spec shiftExample 1 5 rfl (by decide) rfl

/-- Claim C6: for every state whose call stack is below the (nominal)
capacity of 12, Subroutine(t) pushes the program counter and jumps to t,
and the following Return restores the exact original state: the
call/return pair is the identity on the program counter and the call
stack (indeed on the whole state). -/
theorem subroutine_ret_roundtrip (e : Emulator) (t : Nat) (hcap : e.stack.length < 12) :
    ∃ e1, execute_opcode e (.Subroutine t) = some e1 ∧
      e1.program_counter = t ∧
      execute_opcode e1 .Return = some e := by
  obtain ⟨mem, regs, idx, pc, stk, dt, st, rg⟩ := e
  refine ⟨_, rfl, rfl, ?_⟩
  show Emulator.ret _ = some _
  unfold Emulator.subroutine Emulator.goto Emulator.ret
  simp [List.concat_eq_append]

/-- Witness for C6: the round trip applied at the default state with
target 0x300. -/
theorem subroutine_ret_roundtrip_witness :
    ∃ e1, execute_opcode Emulator.default (.Subroutine 0x300) = some e1 ∧
      e1.program_counter = 0x300 ∧
      execute_opcode e1 .Return = some Emulator.default :=
  subroutine_ret_roundtrip Emulator.default 0x300 (by decide)

/-- Claim C7: for X at most 15 and index register I with I + X < 4096,
RegDump(X) succeeds, writes registers 0..X to memory addresses I..I+X,
and leaves the index register unchanged; in particular on the example
state (registers 1,2,3 and index 0), DumpRegisters(2) makes
memory[0..3] = [1,2,3] with the index register still 0. -/
theorem regDump_writes_registers (e : Emulator) (X : Nat)
    (hreg : e.registers.length = 16) (hmem : e.memory.length = 4096)
    (hX : X ≤ 15) (hI : e.index_register + X < 4096) :
    (∃ e2, execute_opcode e (.RegDump X) = some e2 ∧
      e2.index_register = e.index_register ∧
      (∀ i, i ≤ X → e2.memory[e.index_register + i]? = e.registers[i]?))
    ∧ (∃ d2, execute_opcode dumpExample (.RegDump 2) = some d2 ∧
      d2.memory[0]? = some 1 ∧ d2.memory[1]? = some 2 ∧ d2.memory[2]? = some 3 ∧
      d2.index_register = 0) := by
  constructor
  · obtain ⟨e2, hrun, hregs, hidx, _, _, _, _, _, _, _, hval⟩ :=
      regDumpLoop_ok (X + 1) 0 e hreg (by omega) (by omega)
    refine ⟨e2, hrun, hidx, ?_⟩
    intro i hiX
    have hv := hval i (by omega)
    rw [show e.index_register + 0 + i = e.index_register + i from by omega] at hv
    rw [show 0 + i = i from by omega] at hv
    exact hv
  · have hm4096 : dumpExample.memory.length = 4096 := default_memory_length
    have hidx0 : dumpExample.index_register = 0 := rfl
    obtain ⟨d2, hrun, hregs, hidx, _, _, _, _, _, _, _, hval⟩ :=
      regDumpLoop_ok 3 0 dumpExample rfl (by omega) (by omega)
    refine ⟨d2, hrun, ?_, ?_, ?_, hidx⟩
    · exact hval 0 (by omega)
    · exact hval 1 (by omega)
    · exact hval 2 (by omega)

/-- Witness for C7: the theorem applied at the dump example state with
X = 2. -/
theorem regDump_writes_registers_witness :
    (∃ e2, execute_opcode dumpExample (.RegDump 2) = some e2 ∧
      e2.index_register = dumpExample.index_register ∧
      (∀ i, i ≤ 2 → e2.memory[dumpExample.index_register + i]? = dumpExample.registers[i]?))
    ∧ (∃ d2, execute_opcode dumpExample (.RegDump 2) = some d2 ∧
      d2.memory[0]? = some 1 ∧ d2.memory[1]? = some 2 ∧ d2.memory[2]? = some 3 ∧
      d2.index_register = 0) :=
  regDump_writes_registers dumpExample 2 rfl default_memory_length (by decide) (by decide)

/-- Claim C8: each of the four skip instructions produces exactly the
input state with the program counter advanced by 2 when its condition
holds, and exactly the input state otherwise — registers, memory, index
register, stack and timers are untouched in both cases. -/
theorem skip_frame_spec (e : Emulator) (x y c rx ry : Nat)
    (hrx : e.get_reg x = some rx) (hry : e.get_reg y = some ry)
    (hpc : e.program_counter + 2 < 65536) :
    execute_opcode e (.SkipNextIfRegEqualToConst x c)
      = some (if rx = c then { e with program_counter := e.program_counter + 2 } else e)
    ∧ execute_opcode e (.SkipNextIfRegNotEqualToConst x c)
      = some (if rx ≠ c then { e with program_counter := e.program_counter + 2 } else e)
    ∧ execute_opcode e (.SkipNextIfRegEqualToReg x y)
      = some (if rx = ry then { e with program_counter := e.program_counter + 2 } else e)
    ∧ execute_opcode e (.SkipNextIfRegNotEqualToReg x y)
      = some (if rx ≠ ry then { e with program_counter := e.program_counter + 2 } else e) := by
  have hskip : e.skip = { e with program_counter := e.program_counter + 2 } := by
    unfold Emulator.skip
    rw [Nat.mod_eq_of_lt hpc]
  refine ⟨?_, ?_, ?_, ?_⟩
  · simp only [execute_opcode, hrx, Option.bind_eq_bind, Option.some_bind]
    by_cases h : rx = c <;> simp [h, hskip]
  · simp only [execute_opcode, hrx, Option.bind_eq_bind, Option.some_bind]
    by_cases h : rx = c <;> simp [h, hskip]
  · simp only [execute_opcode, hrx, hry, Option.bind_eq_bind, Option.some_bind]
    by_cases h : rx = ry <;> simp [h, hskip]
  · simp only [execute_opcode, hrx, hry, Option.bind_eq_bind, Option.some_bind]
    by_cases h : rx = ry <;> simp [h, hskip]

/-- Witness for C8: the theorem applied at the default state (both
registers zero, constant zero). -/
theorem skip_frame_spec_witness :
    execute_opcode Emulator.default (.SkipNextIfRegEqualToConst 0 0)
      = some (if (0 : Nat) = 0 then
          { Emulator.default with program_counter := Emulator.default.program_counter + 2 }
        else Emulator.default)
    ∧ execute_opcode Emulator.default (.SkipNextIfRegNotEqualToConst 0 0)
      = some (if (0 : Nat) ≠ 0 then
          { Emulator.default with program_counter := Emulator.default.program_counter + 2 }
        else Emulator.default)
    ∧ execute_opcode Emulator.default (.SkipNextIfRegEqualToReg 0 1)
      = some (if (0 : Nat) = 0 then
          { Emulator.default with program_counter := Emulator.default.program_counter + 2 }
        else Emulator.default)
    ∧ execute_opcode Emulator.default (.SkipNextIfRegNotEqualToReg 0 1)
      = some (if (0 : Nat) ≠ 0 then
          { Emulator.default with program_counter := Emulator.default.program_counter + 2 }
        else Emulator.default) :=
  skip_frame_spec Emulator.default 0 1 0 0 0 rfl rfl (by decide)

set_option maxRecDepth 4000 in
/-- Claim C9: every register-index operand of an operation the decoder
produces from a byte pair is in 0..15 (each is a 4-bit nibble), and
register-file get/set accesses at an index below 16 on the 16-slot
register file always succeed. -/
theorem decode_register_operands (b1 b2 : Nat) (h1 : b1 < 256) (h2 : b2 < 256) :
    (∀ op, decode b1 b2 = some op → regOperandsOk op = true)
    ∧ (∀ (e : Emulator) (r v : Nat), r < 16 → e.registers.length = 16 →
        (e.get_reg r).isSome = true ∧ (e.set_reg r v).isSome = true) := by
  constructor
  · intro op hd
    have hx : b1 % (1 <<< 4) < 16 := Nat.mod_lt _ (by decide)
    have hy : b2 >>> 4 < 16 := by
      rw [Nat.shiftRight_eq_div_pow]
      omega
    have h16 : b1 >>> 4 < 16 := by
      rw [Nat.shiftRight_eq_div_pow]
      omega
    unfold decode at hd
    simp only at hd
    set cl := b1 >>> 4 with hcl
    interval_cases cl <;> simp only at hd
    all_goals try split at hd
    all_goals try exact Option.noConfusion hd
    all_goals cases hd
    all_goals simp [regOperandsOk, Nat.shiftRight_eq_div_pow, Nat.shiftLeft_eq]
    all_goals omega
  · intro e r v hr hlen
    constructor
    · unfold Emulator.get_reg
      rw [List.getElem?_eq_getElem (by omega)]
      rfl
    · unfold Emulator.set_reg
      rw [if_pos (by omega)]
      rfl

/-- Witness for C9: the theorem applied at the byte pair (0x81, 0x26)
and a concrete register access. -/
theorem decode_register_operands_witness :
    regOperandsOk (OpCode.RegRightShift 1) = true
    ∧ (Emulator.default.get_reg 3).isSome = true :=
  ⟨(decode_register_operands 0x81 0x26 (by decide) (by decide)).1
     (OpCode.RegRightShift 1) (by decide),
   ((decode_register_operands 0x81 0x26 (by decide) (by decide)).2
     Emulator.default 3 0 (by decide) (by decide)).1⟩

/-- Claim C10: when a shift targets register 15 itself, the final value
of register 15 is the shifted pre-shift value (the flag write happens
first and is overwritten by the register write): RegRightShift(15)
leaves register 15 = old value shifted right by one, RegLeftShift(15)
leaves register 15 = old value doubled modulo 256. -/
theorem shift_flag_overwritten (e : Emulator) (rf : Nat) (hreg : e.registers.length = 16)
    (hrf : e.get_reg 15 = some rf) :
    (∃ a, execute_opcode e (.RegRightShift 15) = some a ∧ a.get_reg 15 = some (rf >>> 1))
    ∧ (∃ b, execute_opcode e (.RegLeftShift 15) = some b ∧
        b.get_reg 15 = some ((rf <<< 1) % 256)) := by
  constructor
  · have hstep : execute_opcode e (.RegRightShift 15)
        = some { e with registers := (e.registers.set 0xF (rf % (1 <<< 1))).set 15 (rf >>> 1) } := by
      simp only [execute_opcode, hrf, Option.bind_eq_bind, Option.some_bind]
      unfold Emulator.set_reg
      rw [if_pos (by omega)]
      simp only [Option.some_bind]
      rw [if_pos (by simpa using by omega)]
    refine ⟨_, hstep, ?_⟩
    show ((e.registers.set 0xF (rf % (1 <<< 1))).set 15 (rf >>> 1))[15]? = some (rf >>> 1)
    rw [List.getElem?_set_self (by simpa using by omega)]
  · have hstep : execute_opcode e (.RegLeftShift 15)
        = some { e with registers := (e.registers.set 0xF (rf >>> 7)).set 15 ((rf <<< 1) % 256) } := by
      simp only [execute_opcode, hrf, Option.bind_eq_bind, Option.some_bind]
      unfold Emulator.set_reg
      rw [if_pos (by omega)]
      simp only [Option.some_bind]
      rw [if_pos (by simpa using by omega)]
    refine ⟨_, hstep, ?_⟩
    show ((e.registers.set 0xF (rf >>> 7)).set 15 ((rf <<< 1) % 256))[15]? = some ((rf <<< 1) % 256)
    rw [List.getElem?_set_self (by simpa using by omega)]

/-- Witness for C10: the theorem applied at the state with
register 15 = 5: right shift leaves register 15 = 2 (not the shifted-out
bit 1), left shift leaves register 15 = 10. -/
theorem shift_flag_overwritten_witness :
    (∃ a, execute_opcode flagExample (.RegRightShift 15) = some a ∧
      a.get_reg 15 = some (5 >>> 1))
    ∧ (∃ b, execute_opcode flagExample (.RegLeftShift 15) = some b ∧
      b.get_reg 15 = some ((5 <<< 1) % 256)) :=
  shift_flag_overwritten flagExample 5 rfl rfl
